import Mathlib

/-!
Verification of the Bloom kernel guardian
(`skills/bloom-kernel-guardian/scripts/guardian.py`) and the companion
content-lint scanner (`skills/bloom-semantics/scripts/semantics_lint.py`)
against their natural-language specification.

The Python sources are shallowly embedded: strings are lists of
characters, the SQLite connection is abstracted as a statement-outcome
oracle, and the filesystem is abstracted as explicit directory/file data
passed to the modelled functions.  Every definition follows the
corresponding Python function line by line.
-/

namespace Bloom

/-! ## Character and string utilities

ASCII models of the Python primitives used by both scripts:
`str.lower`, the `re` module's `\s`, `\b` (word characters), and
substring containment (Python's `in`).  All scanned data in the
repository is ASCII, so the ASCII models coincide with Python's
behaviour on the inputs of interest. -/

/-- ASCII `str.lower` on a single character. -/
def asciiLower (c : Char) : Char :=
  if 'A' ≤ c ∧ c ≤ 'Z' then Char.ofNat (c.toNat + 32) else c

/-- ASCII `str.lower` on a character list. -/
def lowerStr (cs : List Char) : List Char := cs.map asciiLower

/-- Python `\s` (ASCII range): space, tab, newline, carriage return,
vertical tab, form feed. -/
def isPySpace (c : Char) : Bool :=
  c = ' ' ∨ c = '\t' ∨ c = '\n' ∨ c = '\r' ∨ c = '\x0b' ∨ c = '\x0c'

/-- Python `\w` (ASCII range): letters, digits, underscore. -/
def isWordChar (c : Char) : Bool :=
  ('a' ≤ c ∧ c ≤ 'z') ∨ ('A' ≤ c ∧ c ≤ 'Z') ∨ ('0' ≤ c ∧ c ≤ '9') ∨ c = '_'

/-- Is `s` a non-empty run of whitespace characters (an instance of
`\s+`)? -/
def isWsRun (s : List Char) : Bool := !s.isEmpty && s.all isPySpace

/-- Is the head of the list (when there is one) a non-whitespace
character?  Controls where a greedy `\s+` stops. -/
def headNotSpace : List Char → Bool
  | [] => true
  | c :: _ => !isPySpace c

/-- Does `cs` start with `pre` (exact characters)? -/
def startsWithCh : List Char → List Char → Bool
  | [], _ => true
  | _ :: _, [] => false
  | p :: ps, c :: cs => p = c && startsWithCh ps cs

/-- Python's `needle in hay` substring test. -/
def containsSub (needle : List Char) : List Char → Bool
  | [] => startsWithCh needle []
  | c :: cs => startsWithCh needle (c :: cs) || containsSub needle cs

/-- Case-insensitive literal match: consume `lit` (already lowercase)
from the head of `cs`, comparing lowercased; return the remainder. -/
def matchLit : List Char → List Char → Option (List Char)
  | [], cs => some cs
  | _ :: _, [] => none
  | l :: ls, c :: cs => if asciiLower c = l then matchLit ls cs else none

/-- Greedy `\s+`: consume one or more whitespace characters. -/
def matchWs1 : List Char → Option (List Char)
  | [] => none
  | c :: cs =>
    if isPySpace c then some (matchWsStar cs) else none
where
  /-- Greedy `\s*` continuation. -/
  matchWsStar : List Char → List Char
  | [] => []
  | c :: cs => if isPySpace c then matchWsStar cs else c :: cs

/-- Lexicographic comparison of character lists by code point (how
Python compares strings). -/
def leChars : List Char → List Char → Bool
  | [], _ => true
  | _ :: _, [] => false
  | a :: as, b :: bs => if a < b then true else if b < a then false else leChars as bs

/-- Lexicographic `≤` on strings by code point. -/
def strLe (s t : String) : Bool := leChars s.toList t.toList

/-- Insertion of a string into a lexicographically sorted list
(Python `sorted` on strings). -/
def insertSorted (s : String) : List String → List String
  | [] => [s]
  | t :: ts => if strLe s t then s :: t :: ts else t :: insertSorted s ts

/-- Python `sorted` on a list of strings (insertion sort; stable and
lexicographic, matching `sorted(glob.glob(...))`). -/
def sortStrings : List String → List String
  | [] => []
  | s :: ss => insertSorted s (sortStrings ss)

/-! ## Migration discovery (`find_sql_migrations`)

The filesystem is abstracted: each candidate directory is a record of
whether the directory exists and the (glob-returned, unordered) list of
`*.sql` file paths inside it. -/

/-- A candidate migration directory as seen by `find_sql_migrations`:
existence flag and the `*.sql` files `glob` would return. -/
structure MigDir where
  dirExists : Bool
  files : List String
deriving DecidableEq, Repr

/-- `find_sql_migrations`: for each existing candidate directory, append
the sorted glob result (`sql_files += sorted(glob.glob(...))`); raise
`SystemExit` when the accumulated list is empty. -/
def find_sql_migrations (candidates : List MigDir) : Except String (List String) :=
  let sql_files :=
    candidates.foldl
      (fun acc c => if c.dirExists then acc ++ sortStrings c.files else acc) []
  if sql_files.isEmpty then
    .error "No .sql migrations found (looked in migrations/, db/migrations/, src/db/migrations/)."
  else
    .ok sql_files

/-- Modelled from the spec (section 4.1 / 6), for comparison with
`find_sql_migrations`: "return the first non-empty sorted set of
schema-definition files found, preferring the first candidate directory
that contains any; fails with a NotFound condition if no candidate
yields files ... no merging across directories." -/
def findSqlMigrationsSpec : List MigDir → Except String (List String)
  | [] => .error "No .sql migrations found (looked in migrations/, db/migrations/, src/db/migrations/)."
  | c :: cs =>
    if c.dirExists ∧ ¬(sortStrings c.files).isEmpty then .ok (sortStrings c.files)
    else findSqlMigrationsSpec cs

/-! ## Regex machinery for the ghost-state scan

`re.compile(rf"(insert\s+into\s+{table}|update\s+{table}|delete\s+from\s+{table})", re.IGNORECASE)`
is modelled as a deterministic matcher: each alternative is a sequence
of case-insensitive literal words joined by greedy `\s+`.  The
alternatives begin with distinct literals and every `\s+` is followed by
a non-whitespace literal, so Python's backtracking engine behaves
exactly like this greedy matcher on these patterns.  `finditer` is the
leftmost, non-overlapping scan `scanIter`. -/

/-- Match a sequence of lowercase literal words joined by `\s+` at the
head of `cs`; return the remainder on success. -/
def matchSeqWords : List (List Char) → List Char → Option (List Char)
  | [], cs => some cs
  | [w], cs => matchLit w cs
  | w :: w2 :: ws, cs =>
    match matchLit w cs with
    | none => none
    | some cs1 =>
      match matchWs1 cs1 with
      | none => none
      | some cs2 => matchSeqWords (w2 :: ws) cs2

/-- Try the alternatives in order at the head of `cs` (Python `|` tries
left to right); return the length of the first match. -/
def matchAltsLen (alts : List (List (List Char))) (cs : List Char) : Option Nat :=
  match alts with
  | [] => none
  | a :: rest =>
    match matchSeqWords a cs with
    | some r => some (cs.length - r.length)
    | none => matchAltsLen rest cs

/-- Worker of `re.finditer`: scan left to right; `skip` counts the
characters still covered by the previous match (matches are
non-overlapping), and at an uncovered position the leftmost match is
emitted as `(start, length)`. -/
def scanIterAux (alts : List (List (List Char))) : List Char → Nat → Nat → List (Nat × Nat)
  | [], _, _ => []
  | _ :: cs, pos, skip + 1 => scanIterAux alts cs (pos + 1) skip
  | c :: cs, pos, 0 =>
    match matchAltsLen alts (c :: cs) with
    | some len => (pos, len) :: scanIterAux alts cs (pos + 1) (len - 1)
    | none => scanIterAux alts cs (pos + 1) 0

/-- `re.finditer`: all matches, leftmost first, non-overlapping. -/
def scanIter (alts : List (List (List Char))) (cs : List Char) (pos : Nat) :
    List (Nat × Nat) :=
  scanIterAux alts cs pos 0

/-! ## Ghost-state scanner (`scan_for_ghost_state`) -/

/-- The fixed sensitive-table list of the scanner. -/
def suspicious_tables : List String :=
  ["budgets", "policies", "agents", "users", "agent_tokens"]

/-- The three pattern alternatives for one table:
`insert\s+into\s+T`, `update\s+T`, `delete\s+from\s+T`. -/
def tableAlts (table : List Char) : List (List (List Char)) :=
  [["insert".toList, "into".toList, table],
   ["update".toList, table],
   ["delete".toList, "from".toList, table]]

/-- An advisory ghost-state record: table, matched operation text
(`match.group(0)`), character offset (`match.start()`). -/
structure GhostStateFinding where
  table : String
  op : String
  pos : Nat
deriving DecidableEq, Repr

/-- The window test of the scanner: slice from `max 0 (pos - 300)` to
`min len (pos + matchLen + 300)`, lowercase it, and require that none
of `event`, `receipt`, `append` occurs in it. -/
def ghostWindowClean (text : List Char) (pos len : Nat) : Bool :=
  let start := pos - 300
  let stop := min text.length (pos + len + 300)
  let window := lowerStr ((text.drop start).take (stop - start))
  !(containsSub "event".toList window) &&
    !(containsSub "receipt".toList window) &&
    !(containsSub "append".toList window)

/-- All findings for one sensitive table: every regex match whose
surrounding window is clean of audit tokens. -/
def scanTableHits (text : List Char) (table : String) : List GhostStateFinding :=
  (scanIter (tableAlts table.toList) text 0).filterMap
    (fun m =>
      if ghostWindowClean text m.1 m.2 then
        some ⟨table, String.mk ((text.drop m.1).take m.2), m.1⟩
      else none)

/-- All findings of one scan, in table order then text order
(the nested `for table ... for match ...` loops). -/
def ghostHits (text : String) : List GhostStateFinding :=
  suspicious_tables.flatMap (scanTableHits text.toList)

/-- Outcome of one modelled step of the guardian: normal return,
`SystemExit msg`, or propagation of a non-`SystemExit` exception. -/
inductive StepResult where
  | ok : StepResult
  | fatal : String → StepResult
  | exn : StepResult
deriving DecidableEq, Repr

/-- The printed form of one finding. -/
def fmtHit (h : GhostStateFinding) : String :=
  "  - " ++ h.op ++ " on " ++ h.table ++ " at char " ++ toString h.pos

/-- `scan_for_ghost_state`, given the content of the resolved scan
target (`none` when no candidate location exists): skip with a warning
when the file is absent; otherwise fail listing the first 25 findings
when any exist, and pass otherwise. -/
def scan_for_ghost_state (kernelText : Option String) : List String × StepResult :=
  match kernelText with
  | none => (["[WARN] kernel.ts not found for ghost-state scan; skipping."], .ok)
  | some text =>
    let hits := ghostHits text
    if hits.isEmpty then
      (["[OK] Ghost-state heuristic passed (no obvious unlogged mutations)."], .ok)
    else
      ("[FAIL] Possible ghost-state mutations in kernel.ts (heuristic):" ::
         (hits.take 25).map fmtHit,
       .fatal "Ghost-state heuristic failed. Ensure mutations emit event+receipt or are derived.")

/-- The scan-target resolution: `kernel.ts`, then `src/kernel.ts`, then
`src/kernel/kernel.ts`; the first existing candidate supplies the text. -/
def resolveKernel (root srcK srcKK : Option String) : Option String :=
  (root.or srcK).or srcKK

/-! ## Immutability verifier (`require_immutable_table`) -/

/-- Python `"\n".join`. -/
def joinNL : List String → String
  | [] => ""
  | [s] => s
  | s :: t :: rest => s ++ "\n" ++ joinNL (t :: rest)

/-- The heuristic condition of `require_immutable_table`, on the
trigger rows `(name, sql)` fetched from `sqlite_master` for the table:
lowercase the newline-joined bodies (`NULL` bodies read as the empty
string) and require an `update` token, a `delete` token, and a `raise`
or `abort` token. -/
def immutableBlobOk (triggers : List (String × Option String)) : Bool :=
  let sql_blob := lowerStr (joinNL (triggers.map (fun t => t.2.getD ""))).toList
  let has_update := containsSub "update".toList sql_blob
  let has_delete := containsSub "delete".toList sql_blob
  let has_abort := containsSub "raise".toList sql_blob || containsSub "abort".toList sql_blob
  has_update && has_delete && has_abort

/-- `require_immutable_table`: print the `[OK]` line when the
heuristic condition holds, otherwise `SystemExit` with a `[FAIL]`
diagnostic naming the table. -/
def require_immutable_table (table : String)
    (triggers : List (String × Option String)) : List String × StepResult :=
  if immutableBlobOk triggers then
    (["[OK] " ++ table ++ " appears DB-immutable (triggers present)."], .ok)
  else
    ([], .fatal ("[FAIL] " ++ table ++
      " is not DB-immutable. Missing triggers blocking UPDATE/DELETE with RAISE/ABORT."))

/-! ## Write-attempt prover (`assert_blocked`, `prove_immutable_by_writes`)

The SQLite connection is abstracted as an oracle from statement text to
an outcome: the statement succeeds, raises `sqlite3.DatabaseError`, or
raises some other exception. -/

/-- Outcome of `conn.execute` on one statement. -/
inductive StmtOutcome where
  | success : StmtOutcome
  | dbError : StmtOutcome
  | otherError : StmtOutcome
deriving DecidableEq, Repr

/-- `assert_blocked`: a caught `sqlite3.DatabaseError` prints the `[OK]`
line; a successful execution raises `SystemExit` naming the label; any
other exception propagates. -/
def assert_blocked (outcome : StmtOutcome) (label : String) : List String × StepResult :=
  match outcome with
  | .dbError => (["[OK] " ++ label ++ " blocked as expected."], .ok)
  | .success => ([], .fatal ("[FAIL] " ++ label ++ " was allowed; table is not append-only."))
  | .otherError => ([], .exn)

/-- The `UPDATE {table} SET {col} = {col} WHERE {pk} = ?` statement text
built by `prove_immutable_by_writes`. -/
def updateSqlFor (table update_col pk_col : String) : String :=
  "UPDATE " ++ table ++ " SET " ++ update_col ++ " = " ++ update_col ++
    " WHERE " ++ pk_col ++ " = ?"

/-- The `DELETE FROM {table} WHERE {pk} = ?` statement text built by
`prove_immutable_by_writes`. -/
def deleteSqlFor (table pk_col : String) : String :=
  "DELETE FROM " ++ table ++ " WHERE " ++ pk_col ++ " = ?"

/-- Sequencing of two modelled steps: the second runs only when the
first returned normally; output lines accumulate. -/
def seqStep (a b : List String × StepResult) : List String × StepResult :=
  match a with
  | (ls, .ok) => (ls ++ b.1, b.2)
  | (ls, r) => (ls, r)

/-- `prove_immutable_by_writes`: attempt the self-update, then the
delete by primary key, each required to be blocked. -/
def prove_immutable_by_writes (exec : String → StmtOutcome)
    (table pk_col update_col : String) : List String × StepResult :=
  seqStep
    (assert_blocked (exec (updateSqlFor table update_col pk_col)) ("UPDATE on " ++ table))
    (assert_blocked (exec (deleteSqlFor table pk_col)) ("DELETE on " ++ table))

/-! ## The guardian pipeline (`main`)

`main` runs Load (discover + apply migrations), Verify (both audit
tables), Seed (actor, event, receipt inserts), Prove (forbidden writes
on both audit tables), Scan (ghost-state heuristic), in that order,
each `SystemExit` or exception terminating the process.  The
environment abstracts everything the process reads from the outside
world. -/

/-- The five pipeline stages. -/
inductive Stage where
  | load : Stage
  | verify : Stage
  | seed : Stage
  | prove : Stage
  | scan : Stage
deriving DecidableEq, Repr

/-- Terminal outcome of a guardian run: exit 0, `SystemExit msg`
(exit 1, message on stderr), or an uncaught non-`SystemExit` exception. -/
inductive RunResult where
  | passed : RunResult
  | failed : String → RunResult
  | exnExit : RunResult
deriving DecidableEq, Repr

/-- Everything `main` reads from its environment: the migration
directories, whether applying the migrations raises (first failing file
and error), the trigger rows of the two audit tables, whether the
seeder's inserts succeed, the outcome oracle for the prover statements,
and the contents of the three candidate scan-target locations. -/
structure GuardianEnv where
  migDirs : List MigDir
  applyError : Option (String × String)
  eventsTriggers : List (String × Option String)
  receiptsTriggers : List (String × Option String)
  seedOk : Bool
  exec : String → StmtOutcome
  kernelRoot : Option String
  kernelSrc : Option String
  kernelSrcKernel : Option String

/-- `apply_migrations`: the first failing file aborts the run with a
`SystemExit` naming the file and engine error; otherwise it returns. -/
def apply_migrations (applyError : Option (String × String)) : List String × StepResult :=
  match applyError with
  | none => ([], .ok)
  | some (f, e) => ([], .fatal ("Failed applying migration " ++ f ++ ": " ++ e))

/-- Stage Load: `find_sql_migrations` then `apply_migrations`. -/
def loadStage (env : GuardianEnv) : List String × StepResult :=
  match find_sql_migrations env.migDirs with
  | .error m => ([], .fatal m)
  | .ok _ => apply_migrations env.applyError

/-- Stage Verify: `require_immutable_table` on `events`, then on
`receipts`. -/
def verifyStage (env : GuardianEnv) : List String × StepResult :=
  seqStep (require_immutable_table "events" env.eventsTriggers)
    (require_immutable_table "receipts" env.receiptsTriggers)

/-- Stage Seed: `seed_actor`, `insert_event`, `insert_receipt`; any
insert failure propagates as an exception. -/
def seedStage (env : GuardianEnv) : List String × StepResult :=
  ([], if env.seedOk then .ok else .exn)

/-- Stage Prove: `prove_immutable_by_writes` on `events` (pk
`event_id`, column `type`), then on `receipts` (pk `receipt_id`, column
`what_happened`). -/
def proveStage (env : GuardianEnv) : List String × StepResult :=
  seqStep (prove_immutable_by_writes env.exec "events" "event_id" "type")
    (prove_immutable_by_writes env.exec "receipts" "receipt_id" "what_happened")

/-- Stage Scan: `scan_for_ghost_state` on the resolved target. -/
def scanStage (env : GuardianEnv) : List String × StepResult :=
  scan_for_ghost_state (resolveKernel env.kernelRoot env.kernelSrc env.kernelSrcKernel)

/-- A complete run: the stages entered (in order), the stdout lines,
and the terminal outcome. -/
structure GRun where
  trace : List Stage
  lines : List String
  result : RunResult
deriving Repr

/-- Run a list of staged steps strictly in order: a stage is entered
only when every earlier stage returned normally, and a `SystemExit` or
exception stops the pipeline at once. -/
def runStages : List (Stage × (List String × StepResult)) → List Stage × List String × RunResult
  | [] => ([], [], .passed)
  | (st, (ls, r)) :: rest =>
    match r with
    | .ok =>
      let (ts, ls2, res) := runStages rest
      (st :: ts, ls ++ ls2, res)
    | .fatal m => ([st], ls, .failed m)
    | .exn => ([st], ls, .exnExit)

/-- `main`: banner, then Load → Verify → Seed → Prove → Scan, then the
final summary line when everything passed. -/
def runGuardian (env : GuardianEnv) : GRun :=
  let (ts, ls, res) := runStages
    [(.load, loadStage env), (.verify, verifyStage env), (.seed, seedStage env),
     (.prove, proveStage env), (.scan, scanStage env)]
  ⟨ts,
   "== Bloom Kernel Guardian ==" ::
     (ls ++ if res = .passed then ["[OK] Guardian checks passed."] else []),
   res⟩

/-- Does a diagnostic line start with `[OK]`? -/
def isOkLine (s : String) : Bool := startsWithCh "[OK]".toList s.toList

/-! ## Companion content-lint scanner (`semantics_lint.py`)

Walking the filesystem is I/O; a scanned file is abstracted to its
lowercased suffix and its text.  Everything from `splitlines` down is
modelled exactly. -/

/-- The supported extensions of the lint scanner. -/
def EXTENSIONS : List String :=
  [".md", ".mdx", ".html", ".htm", ".txt", ".tsx", ".ts", ".jsx", ".js",
   ".json", ".yml", ".yaml"]

/-- The banned vocabulary list. -/
def BANNED_TERMS : List String :=
  ["wallet", "gas", "chain", "private key", "seed phrase"]

/-- Body of one string literal for `STRING_LITERAL_RE`, scanned after
an opening `delim`: plain characters up to the closing delimiter, with
`\\.`-style escape pairs kept in the captured group; fails (no match at
this opening quote) when the literal is unterminated or a backslash is
followed by nothing or a newline (`.` does not match a newline). -/
def litBody (delim : Char) : List Char → List Char → Option (List Char × List Char)
  | [], _ => none
  | c :: rest, acc =>
    if c = delim then some (acc.reverse, rest)
    else if c = '\\' then
      match rest with
      | [] => none
      | d :: rest2 => if d = '\n' then none else litBody delim rest2 (d :: '\\' :: acc)
    else litBody delim rest (c :: acc)

/-- Worker of `extract_string_literals`: left-to-right `finditer` over
the three-way alternation of single-, double-, and backtick-quoted
literals; `skip` counts characters still covered by the previous
literal match, each match contributes its captured group (the body),
and a position where no literal starts is passed over. -/
def litScanAux : List Char → Nat → List (List Char)
  | [], _ => []
  | _ :: rest, skip + 1 => litScanAux rest skip
  | c :: rest, 0 =>
    if c = '\'' ∨ c = '"' ∨ c = '`' then
      match litBody c rest [] with
      | some (content, rest2) => content :: litScanAux rest (rest.length - rest2.length)
      | none => litScanAux rest 0
    else litScanAux rest 0

/-- `extract_string_literals`: all string-literal bodies of one line,
left to right. -/
def extract_string_literals (cs : List Char) : List (List Char) :=
  litScanAux cs 0

/-- Scan for the first `>` and return the remainder after it
(the bounded search of `[^>]+>` after its first mandatory character). -/
def tagClose : List Char → Option (List Char)
  | [] => none
  | c :: rest => if c = '>' then some rest else tagClose rest

/-- Worker of `strip_html_tags`: `skip` counts characters still covered
by the previous tag match (already replaced by its single space);
positions that begin no `<[^>]+>` span are copied through. -/
def stripAux : List Char → Nat → List Char
  | [], _ => []
  | _ :: rest, skip + 1 => stripAux rest skip
  | c :: rest, 0 =>
    if c = '<' then
      match rest with
      | [] => [c]
      | d :: rest2 =>
        if d = '>' then c :: stripAux rest 0
        else
          match tagClose rest2 with
          | some rest3 => ' ' :: stripAux rest (rest.length - rest3.length)
          | none => c :: stripAux rest 0
    else c :: stripAux rest 0

/-- `strip_html_tags`: `re.sub(r"<[^>]+>", " ", line)` — replace every
`<`, at least one non-`>` character, `>` span by a single space. -/
def strip_html_tags (cs : List Char) : List Char :=
  stripAux cs 0

/-- Python `str.splitlines` helper: split at every `\n`, `\r\n` or `\r`
break, keeping a (possibly empty) final segment. -/
def splitBreaks : List Char → List (List Char)
  | [] => [[]]
  | '\n' :: cs => [] :: splitBreaks cs
  | '\r' :: '\n' :: cs => [] :: splitBreaks cs
  | '\r' :: cs => [] :: splitBreaks cs
  | c :: cs =>
    match splitBreaks cs with
    | [] => [[c]]
    | l :: ls => (c :: l) :: ls

/-- Python `str.splitlines`: no trailing empty line after a final
break, and no lines at all for the empty string. -/
def splitLinesPy (cs : List Char) : List (List Char) :=
  let parts := splitBreaks cs
  if parts.getLast? = some [] then parts.dropLast else parts

/-- Worker of Python `str.split()` (no argument): split on whitespace
runs, no empty words. -/
def wordsAux : List Char → List Char → List (List Char)
  | [], acc => if acc.isEmpty then [] else [acc.reverse]
  | c :: cs, acc =>
    if isPySpace c then
      if acc.isEmpty then wordsAux cs [] else acc.reverse :: wordsAux cs []
    else wordsAux cs (c :: acc)

/-- Python `str.split()` (no argument). -/
def pySplitWords (s : String) : List (List Char) :=
  wordsAux s.toList []

/-- `term_pattern`, reduced to its word list: the compiled regex is
`\bterm\b` for a one-word term, and `\bw1\b\s+\bw2\b...` for a
multi-word term, case-insensitive; both are determined by the list of
the term's words. -/
def term_pattern (term : String) : List (List Char) :=
  pySplitWords term

/-- Is the right end of a match at a word boundary (`\b`)? -/
def rightBoundOk : List Char → Bool
  | [] => true
  | c :: _ => !isWordChar c

/-- Does the word-list pattern match exactly at the head of `cs`
(including the trailing `\b`)? -/
def termMatchAt (words : List (List Char)) (cs : List Char) : Bool :=
  match matchSeqWords words cs with
  | some rest => rightBoundOk rest
  | none => false

/-- `pattern.search` for a term's word-list pattern: try every
position, requiring the leading `\b` (previous character, when any, is
not a word character). -/
def termSearchFrom (words : List (List Char)) : Option Char → List Char → Bool
  | prev, [] =>
    (match prev with | none => true | some p => !isWordChar p) && termMatchAt words []
  | prev, c :: cs =>
    ((match prev with | none => true | some p => !isWordChar p) && termMatchAt words (c :: cs))
      || termSearchFrom words (some c) cs

/-- `pattern.search(segment)` for the pattern of `term`. -/
def termSearch (term : String) (segment : List Char) : Bool :=
  termSearchFrom (term_pattern term) none segment

/-- Python `str.strip()` (ASCII whitespace). -/
def pyStrip (cs : List Char) : List Char :=
  ((cs.dropWhile isPySpace).reverse.dropWhile isPySpace).reverse

/-- `enumerate(..., 1)`. -/
def enumFrom {α : Type} (n : Nat) : List α → List (Nat × α)
  | [] => []
  | a :: as => (n, a) :: enumFrom (n + 1) as

/-- A scanned file, abstracted to its lowercased suffix
(`path.suffix.lower()`) and its decoded text. -/
structure LintFile where
  ext : String
  text : String
deriving DecidableEq, Repr

/-- One recorded hit of the lint scanner: line number, banned term,
stripped line text. -/
structure LintHit where
  lineNo : Nat
  term : String
  line : String
deriving DecidableEq, Repr

/-- The segment selection of `main`: string-literal contents for the
code extensions, the tag-stripped line for the markup extensions, the
raw line otherwise. -/
def segmentsOf (ext : String) (line : List Char) : List (List Char) :=
  if ext = ".ts" ∨ ext = ".tsx" ∨ ext = ".js" ∨ ext = ".jsx" then
    extract_string_literals line
  else if ext = ".html" ∨ ext = ".htm" then
    [strip_html_tags line]
  else
    [line]

/-- Hits contributed by one line: every banned term matching any
segment of the line (the two inner loops of `main`). -/
def lineHits (ext : String) (lineNo : Nat) (line : List Char) : List LintHit :=
  (segmentsOf ext line).flatMap (fun seg =>
    BANNED_TERMS.filterMap (fun term =>
      if termSearch term seg then some ⟨lineNo, term, String.mk (pyStrip line)⟩
      else none))

/-- Hits contributed by one file: its lines, enumerated from 1, each
scanned through `lineHits`. -/
def fileHits (f : LintFile) : List LintHit :=
  (enumFrom 1 (splitLinesPy f.text.toList)).flatMap (fun p => lineHits f.ext p.1 p.2)

/-- All hits of one lint run over the scanned files. -/
def lintHits (files : List LintFile) : List LintHit :=
  files.flatMap fileHits

/-- The process exit code of `main`: `SystemExit(1)` when any hit was
recorded, 0 otherwise. -/
def lintExitCode (files : List LintFile) : Nat :=
  if (lintHits files).isEmpty then 0 else 1

/-! ## Theorems -/

/-- The accumulator of `find_sql_migrations` collects the per-directory
sorted lists of every existing candidate, in candidate order. -/
theorem mig_foldl (l : List MigDir) (acc : List String) :
    l.foldl (fun a c => if c.dirExists then a ++ sortStrings c.files else a) acc =
      acc ++ l.flatMap (fun c => if c.dirExists then sortStrings c.files else []) := by
  induction l generalizing acc with
  | nil => simp
  | cons c cs ih =>
    cases hc : c.dirExists <;>
      simp [List.foldl_cons, hc, ih, List.append_assoc]

/-- C1, counterexample: with two existing candidate directories that
both contain a schema file, discovery returns the files of both
directories merged, not the first directory's set alone (which is what
the spec-modelled discovery returns). -/
theorem c1_counterexample :
    find_sql_migrations [⟨true, ["a.sql"]⟩, ⟨true, ["b.sql"]⟩] =
        .ok ["a.sql", "b.sql"] ∧
      findSqlMigrationsSpec [⟨true, ["a.sql"]⟩, ⟨true, ["b.sql"]⟩] = .ok ["a.sql"] ∧
      find_sql_migrations [⟨true, ["a.sql"]⟩, ⟨true, ["b.sql"]⟩] ≠
        findSqlMigrationsSpec [⟨true, ["a.sql"]⟩, ⟨true, ["b.sql"]⟩] := by
  refine ⟨rfl, rfl, ?_⟩
  intro h
  rw [show find_sql_migrations [⟨true, ["a.sql"]⟩, ⟨true, ["b.sql"]⟩] =
        .ok ["a.sql", "b.sql"] from rfl,
      show findSqlMigrationsSpec [⟨true, ["a.sql"]⟩, ⟨true, ["b.sql"]⟩] =
        .ok ["a.sql"] from rfl] at h
  simp at h

/-- C1, amended: migration discovery concatenates, over all existing
candidate directories in priority order, each directory's
lexicographically sorted file list (merging across directories), and
fails with the NotFound `SystemExit` exactly when that concatenation is
empty. -/
theorem c1_amended (candidates : List MigDir) :
    find_sql_migrations candidates =
      (let files :=
        candidates.flatMap (fun c => if c.dirExists then sortStrings c.files else [])
       if files.isEmpty then
         .error
           "No .sql migrations found (looked in migrations/, db/migrations/, src/db/migrations/)."
       else .ok files) := by
  simp only [find_sql_migrations, mig_foldl, List.nil_append]

/-- Case-insensitive literal matching consumes exactly a prefix whose
lowercase form is the literal, whatever follows it. -/
theorem matchLit_append (lit : List Char) :
    ∀ (x rest : List Char), lowerStr x = lit → matchLit lit (x ++ rest) = some rest := by
  induction lit with
  | nil =>
    intro x rest h
    have hx : x = [] := by simpa [lowerStr] using h
    subst hx
    rfl
  | cons l ls ih =>
    intro x rest h
    match x with
    | [] => simp [lowerStr] at h
    | c :: cs =>
      simp only [lowerStr, List.map_cons, List.cons.injEq] at h
      obtain ⟨h1, h2⟩ := h
      simp only [List.cons_append, matchLit, if_pos h1]
      exact ih cs rest h2

/-- A greedy `\s*` consumes a whitespace run exactly up to a
non-whitespace continuation. -/
theorem matchWsStar_append :
    ∀ (s rest : List Char), s.all isPySpace = true → headNotSpace rest = true →
      matchWs1.matchWsStar (s ++ rest) = rest := by
  intro s
  induction s with
  | nil =>
    intro rest _ hr
    cases rest with
    | nil => rfl
    | cons r rs =>
      have hrf : isPySpace r = false := by simpa [headNotSpace] using hr
      simp [matchWs1.matchWsStar, hrf]
  | cons c s2 ih =>
    intro rest hs hr
    have hc : isPySpace c = true := by
      simp only [List.all_cons, Bool.and_eq_true] at hs
      exact hs.1
    have hs2 : s2.all isPySpace = true := by
      simp only [List.all_cons, Bool.and_eq_true] at hs
      exact hs.2
    simp [matchWs1.matchWsStar, hc, ih rest hs2 hr]

/-- A greedy `\s+` consumes a non-empty whitespace run exactly up to a
non-whitespace continuation. -/
theorem matchWs1_append (s rest : List Char) (hs : isWsRun s = true)
    (hr : headNotSpace rest = true) : matchWs1 (s ++ rest) = some rest := by
  cases s with
  | nil => simp [isWsRun] at hs
  | cons c s2 =>
    simp only [isWsRun, List.isEmpty_cons, Bool.not_false, Bool.true_and,
      List.all_cons, Bool.and_eq_true] at hs
    simp [matchWs1, hs.1, matchWsStar_append s2 rest hs.2 hr]

/-- A non-whitespace head survives appending. -/
theorem headNotSpace_append (x r : List Char) (hx : x ≠ [])
    (h : headNotSpace x = true) : headNotSpace (x ++ r) = true := by
  cases x with
  | nil => exact absurd rfl hx
  | cons c cs => simpa [headNotSpace] using h

/-- A list with a non-empty lowercase image is non-empty. -/
theorem lowerStr_ne_nil (x w : List Char) (h : lowerStr x = w) (hw : w ≠ []) :
    x ≠ [] := by
  intro hx
  subst hx
  exact hw (by simpa [lowerStr] using h.symm)

/-- The head of the lowercase image is the lowered head. -/
theorem lowerStr_cons_head (c : Char) (cs : List Char) (l : Char) (ls : List Char)
    (h : lowerStr (c :: cs) = l :: ls) : asciiLower c = l := by
  simp only [lowerStr, List.map_cons, List.cons.injEq] at h
  exact h.1

/-- A word-sequence pattern fails at a position whose head does not
lower to the first letter of its first word. -/
theorem matchSeqWords_head_ne (l : Char) (ls : List Char) (ws : List (List Char))
    (c : Char) (cs : List Char) (h : ¬asciiLower c = l) :
    matchSeqWords ((l :: ls) :: ws) (c :: cs) = none := by
  cases ws with
  | nil => simp [matchSeqWords, matchLit, h]
  | cons w2 ws2 => simp [matchSeqWords, matchLit, h]

/-- A two-word pattern (`w1\s+w2`) consumes exactly a case variant of
its first word, a whitespace run, and a case variant of its second
word, whatever follows. -/
theorem matchSeqWords2_append (w1 w2 x1 x2 s1 tail : List Char)
    (h1 : lowerStr x1 = w1) (h2 : lowerStr x2 = w2)
    (hs1 : isWsRun s1 = true) (hx2ne : x2 ≠ []) (hx2 : headNotSpace x2 = true) :
    matchSeqWords [w1, w2] (x1 ++ (s1 ++ (x2 ++ tail))) = some tail := by
  have e1 := matchLit_append w1 x1 (s1 ++ (x2 ++ tail)) h1
  have e2 := matchWs1_append s1 (x2 ++ tail) hs1 (headNotSpace_append x2 tail hx2ne hx2)
  have e3 := matchLit_append w2 x2 tail h2
  simp [matchSeqWords, e1, e2, e3]

/-- A three-word pattern (`w1\s+w2\s+w3`) consumes exactly its three
case-variant words joined by whitespace runs, whatever follows. -/
theorem matchSeqWords3_append (w1 w2 w3 x1 x2 x3 s1 s2 tail : List Char)
    (h1 : lowerStr x1 = w1) (h2 : lowerStr x2 = w2) (h3 : lowerStr x3 = w3)
    (hs1 : isWsRun s1 = true) (hs2 : isWsRun s2 = true)
    (hx2ne : x2 ≠ []) (hx2 : headNotSpace x2 = true)
    (hx3ne : x3 ≠ []) (hx3 : headNotSpace x3 = true) :
    matchSeqWords [w1, w2, w3] (x1 ++ (s1 ++ (x2 ++ (s2 ++ (x3 ++ tail))))) =
      some tail := by
  have e1 := matchLit_append w1 x1 (s1 ++ (x2 ++ (s2 ++ (x3 ++ tail)))) h1
  have e2 := matchWs1_append s1 (x2 ++ (s2 ++ (x3 ++ tail))) hs1
    (headNotSpace_append x2 (s2 ++ (x3 ++ tail)) hx2ne hx2)
  have e3 := matchLit_append w2 x2 (s2 ++ (x3 ++ tail)) h2
  have e4 := matchWs1_append s2 (x3 ++ tail) hs2 (headNotSpace_append x3 tail hx3ne hx3)
  have e5 := matchLit_append w3 x3 tail h3
  simp [matchSeqWords, e1, e2, e3, e4, e5]

/-- `finditer` coverage: in any text, a position where the alternation
matches forces the scan to report a match at or before that position
(exactly at it unless an earlier overlapping match was reported
first). -/
theorem scanIterAux_cover (alts : List (List (List Char)))
    (halts : matchAltsLen alts [] = none) :
    ∀ (cs : List Char) (pos skip i len : Nat), skip ≤ i →
      matchAltsLen alts (cs.drop i) = some len →
      ∃ p l, (p, l) ∈ scanIterAux alts cs pos skip ∧ p ≤ pos + i := by
  intro cs
  induction cs with
  | nil =>
    intro pos skip i len _ hm
    rw [List.drop_nil, halts] at hm
    cases hm
  | cons c cs2 ih =>
    intro pos skip i len hsk hm
    cases skip with
    | succ k =>
      cases i with
      | zero => omega
      | succ i2 =>
        rw [List.drop_succ_cons] at hm
        obtain ⟨p, l, hmem, hle⟩ := ih (pos + 1) k i2 len (by omega) hm
        exact ⟨p, l, hmem, by omega⟩
    | zero =>
      cases hma : matchAltsLen alts (c :: cs2) with
      | some len0 =>
        refine ⟨pos, len0, ?_, by omega⟩
        simp [scanIterAux, hma]
      | none =>
        cases i with
        | zero =>
          rw [List.drop_zero, hma] at hm
          cases hm
        | succ i2 =>
          rw [List.drop_succ_cons] at hm
          obtain ⟨p, l, hmem, hle⟩ := ih (pos + 1) 0 i2 len (by omega) hm
          refine ⟨p, l, ?_, by omega⟩
          have hstep : scanIterAux alts (c :: cs2) pos 0 =
              scanIterAux alts cs2 (pos + 1) 0 := by
            simp [scanIterAux, hma]
          rw [hstep]
          exact hmem

/-- C3, counterexample: the sensitive table `budgets` is reported for a
statement whose real target is the longer identifier
`budgets_archive` — the claim says such a statement is never counted as
a match for `budgets`. -/
theorem c3_counterexample :
    ghostHits "INSERT INTO budgets_archive (id) VALUES (1)" =
      [⟨"budgets", "INSERT INTO budgets", 0⟩] := by decide

/-- C3, amended: for every sensitive table name and every source text,
the Scanner matches the three statement forms case-insensitively but
with no word-boundary requirement around the table name: any occurrence
of the keywords, whitespace runs, and the table-name characters (in any
letter case) matches and consumes exactly through the table name,
regardless of the characters that follow — so a statement whose target
is a longer identifier with the sensitive name as a prefix is counted —
and in any text, every position where a statement form matches (however
it is preceded, e.g. inside `reinsert`) makes the scan report a match
at or before that position. -/
theorem c3_amended :
    (∀ (table : String) (x1 x2 xt s1 s2 tail : List Char),
        lowerStr x1 = "insert".toList → lowerStr x2 = "into".toList →
        lowerStr xt = table.toList → isWsRun s1 = true → isWsRun s2 = true →
        headNotSpace x2 = true → xt ≠ [] → headNotSpace xt = true →
        matchAltsLen (tableAlts table.toList)
            (x1 ++ (s1 ++ (x2 ++ (s2 ++ (xt ++ tail))))) =
          some (x1.length + s1.length + x2.length + s2.length + xt.length)) ∧
      (∀ (table : String) (x1 xt s1 tail : List Char),
        lowerStr x1 = "update".toList → lowerStr xt = table.toList →
        isWsRun s1 = true → xt ≠ [] → headNotSpace xt = true →
        matchAltsLen (tableAlts table.toList) (x1 ++ (s1 ++ (xt ++ tail))) =
          some (x1.length + s1.length + xt.length)) ∧
      (∀ (table : String) (x1 x2 xt s1 s2 tail : List Char),
        lowerStr x1 = "delete".toList → lowerStr x2 = "from".toList →
        lowerStr xt = table.toList → isWsRun s1 = true → isWsRun s2 = true →
        headNotSpace x2 = true → xt ≠ [] → headNotSpace xt = true →
        matchAltsLen (tableAlts table.toList)
            (x1 ++ (s1 ++ (x2 ++ (s2 ++ (xt ++ tail))))) =
          some (x1.length + s1.length + x2.length + s2.length + xt.length)) ∧
      (∀ (table : String) (text : List Char) (i len : Nat),
        matchAltsLen (tableAlts table.toList) (text.drop i) = some len →
        ∃ p l, (p, l) ∈ scanIter (tableAlts table.toList) text 0 ∧ p ≤ i) ∧
      ghostHits "reinsert into budgets_archive" =
        [⟨"budgets", "insert into budgets", 2⟩] := by
  refine ⟨?_, ?_, ?_, ?_, by decide⟩
  · intro table x1 x2 xt s1 s2 tail h1 h2 h3 hs1 hs2 hx2 hxtne hxt
    have hx2ne : x2 ≠ [] := lowerStr_ne_nil x2 "into".toList h2 (by decide)
    have hseq := matchSeqWords3_append "insert".toList "into".toList table.toList
      x1 x2 xt s1 s2 tail h1 h2 h3 hs1 hs2 hx2ne hx2 hxtne hxt
    simp only [tableAlts, matchAltsLen, hseq, Option.some.injEq]
    simp only [List.length_append]
    omega
  · intro table x1 xt s1 tail h1 h3 hs1 hxtne hxt
    cases x1 with
    | nil => exact absurd h1 (by decide)
    | cons c x12 =>
      have hc : asciiLower c = 'u' := lowerStr_cons_head c x12 'u' "pdate".toList h1
      have hfail1 : matchSeqWords ["insert".toList, "into".toList, table.toList]
          ((c :: x12) ++ (s1 ++ (xt ++ tail))) = none := by
        rw [List.cons_append]
        exact matchSeqWords_head_ne 'i' "nsert".toList ["into".toList, table.toList]
          c (x12 ++ (s1 ++ (xt ++ tail))) (by rw [hc]; decide)
      have hseq := matchSeqWords2_append "update".toList table.toList
        (c :: x12) xt s1 tail h1 h3 hs1 hxtne hxt
      simp only [tableAlts, matchAltsLen, hfail1, hseq, Option.some.injEq]
      simp only [List.length_append, List.length_cons]
      omega
  · intro table x1 x2 xt s1 s2 tail h1 h2 h3 hs1 hs2 hx2 hxtne hxt
    cases x1 with
    | nil => exact absurd h1 (by decide)
    | cons c x12 =>
      have hc : asciiLower c = 'd' := lowerStr_cons_head c x12 'd' "elete".toList h1
      have hfail1 : matchSeqWords ["insert".toList, "into".toList, table.toList]
          ((c :: x12) ++ (s1 ++ (x2 ++ (s2 ++ (xt ++ tail))))) = none := by
        rw [List.cons_append]
        exact matchSeqWords_head_ne 'i' "nsert".toList ["into".toList, table.toList]
          c (x12 ++ (s1 ++ (x2 ++ (s2 ++ (xt ++ tail))))) (by rw [hc]; decide)
      have hfail2 : matchSeqWords ["update".toList, table.toList]
          ((c :: x12) ++ (s1 ++ (x2 ++ (s2 ++ (xt ++ tail))))) = none := by
        rw [List.cons_append]
        exact matchSeqWords_head_ne 'u' "pdate".toList [table.toList]
          c (x12 ++ (s1 ++ (x2 ++ (s2 ++ (xt ++ tail))))) (by rw [hc]; decide)
      have hx2ne : x2 ≠ [] := lowerStr_ne_nil x2 "from".toList h2 (by decide)
      have hseq := matchSeqWords3_append "delete".toList "from".toList table.toList
        (c :: x12) x2 xt s1 s2 tail h1 h2 h3 hs1 hs2 hx2ne hx2 hxtne hxt
      simp only [tableAlts, matchAltsLen, hfail1, hfail2, hseq, Option.some.injEq]
      simp only [List.length_append, List.length_cons]
      omega
  · intro table text i len hm
    simpa using scanIterAux_cover (tableAlts table.toList) rfl text 0 0 i len
      (Nat.zero_le i) hm

/-- C4: a finding for a table is recorded exactly for those regex
matches whose 300-characters-each-side window (clamped to the text) is
free of the tokens `event`, `receipt`, `append`; the window rule on the
two concrete programs of the claim gives exactly one `budgets` finding
without an audit token nearby, and none once `emitEvent(...)` is in
range. -/
theorem c4_window_rule :
    (∀ (text : List Char) (table : String) (F : GhostStateFinding),
        F ∈ scanTableHits text table ↔
          ∃ len, (F.pos, len) ∈ scanIter (tableAlts table.toList) text 0 ∧
            ghostWindowClean text F.pos len = true ∧
            F.op = String.mk ((text.drop F.pos).take len) ∧ F.table = table) ∧
      ghostHits "INSERT INTO budgets (amount) VALUES (1)" =
        [⟨"budgets", "INSERT INTO budgets", 0⟩] ∧
      ghostHits "INSERT INTO budgets (amount) VALUES (1); emitEvent(x);" = [] := by
  refine ⟨?_, by decide, by decide⟩
  intro text table F
  simp only [scanTableHits, List.mem_filterMap]
  constructor
  · rintro ⟨⟨p, l⟩, hm, hf⟩
    by_cases hc : ghostWindowClean text p l = true
    · rw [if_pos hc] at hf
      obtain rfl := (Option.some.injEq _ _).mp hf
      exact ⟨l, hm, hc, rfl, rfl⟩
    · rw [if_neg hc] at hf
      cases hf
  · rintro ⟨l, hm, hclean, hop, htab⟩
    refine ⟨(F.pos, l), hm, ?_⟩
    rw [if_pos hclean]
    cases F
    simp only at hop htab
    simp [hop, htab]

/-- C5: for a given table, the prover issues the self-update and the
delete-by-primary-key statements; the stage passes (two `[OK]` lines,
normal return) exactly when both statements raise a database error; a
statement that executes without error aborts with an
`AppendOnlyViolation` `SystemExit` naming the operation and the table;
and the pipeline runs the prover for both the `events` and the
`receipts` table. -/
theorem c5_prover_blocked (exec : String → StmtOutcome)
    (table pk_col update_col : String) :
    (prove_immutable_by_writes exec table pk_col update_col =
        (["[OK] UPDATE on " ++ table ++ " blocked as expected.",
          "[OK] DELETE on " ++ table ++ " blocked as expected."], .ok) ↔
      exec (updateSqlFor table update_col pk_col) = .dbError ∧
        exec (deleteSqlFor table pk_col) = .dbError) ∧
      (exec (updateSqlFor table update_col pk_col) = .success →
        prove_immutable_by_writes exec table pk_col update_col =
          ([], .fatal ("[FAIL] UPDATE on " ++ table ++
            " was allowed; table is not append-only."))) ∧
      (exec (updateSqlFor table update_col pk_col) = .dbError →
        exec (deleteSqlFor table pk_col) = .success →
        prove_immutable_by_writes exec table pk_col update_col =
          (["[OK] UPDATE on " ++ table ++ " blocked as expected."],
            .fatal ("[FAIL] DELETE on " ++ table ++
              " was allowed; table is not append-only."))) ∧
      (∀ env : GuardianEnv, proveStage env =
        seqStep (prove_immutable_by_writes env.exec "events" "event_id" "type")
          (prove_immutable_by_writes env.exec "receipts" "receipt_id" "what_happened")) := by
  have e1 : ("[OK] " ++ "UPDATE on " : String) = "[OK] UPDATE on " := rfl
  have e2 : ("[OK] " ++ "DELETE on " : String) = "[OK] DELETE on " := rfl
  have e3 : ("[FAIL] " ++ "UPDATE on " : String) = "[FAIL] UPDATE on " := rfl
  have e4 : ("[FAIL] " ++ "DELETE on " : String) = "[FAIL] DELETE on " := rfl
  refine ⟨?_, ?_, ?_, fun env => rfl⟩ <;>
    cases hu : exec (updateSqlFor table update_col pk_col) <;>
      cases hd : exec (deleteSqlFor table pk_col) <;>
        simp [prove_immutable_by_writes, seqStep, assert_blocked, hu, hd,
          ← String.append_assoc, e1, e2, e3, e4]

/-- C5, witness: with an oracle that raises a database error on every
statement, the prover passes for the `events` table with its two `[OK]`
lines. -/
theorem c5_witness :
    prove_immutable_by_writes (fun _ => .dbError) "events" "event_id" "type" =
      (["[OK] UPDATE on events blocked as expected.",
        "[OK] DELETE on events blocked as expected."], .ok) :=
  ((c5_prover_blocked (fun _ => .dbError) "events" "event_id" "type").1).mpr ⟨rfl, rfl⟩

/-- C6: the verifier passes a table exactly when the lowercased
concatenation of its trigger bodies contains an `update` token, a
`delete` token, and a `raise` or `abort` token, and otherwise fails
with the `ImmutabilityViolation` `SystemExit` naming the table; so
removing any one token category from otherwise valid trigger text turns
the pass into that failure. -/
theorem c6_verifier_tokens (table : String)
    (triggers : List (String × Option String)) :
    (require_immutable_table table triggers =
        (["[OK] " ++ table ++ " appears DB-immutable (triggers present)."], .ok) ↔
      immutableBlobOk triggers = true) ∧
      (immutableBlobOk triggers = true ↔
        (containsSub "update".toList
            (lowerStr (joinNL (triggers.map (fun t => t.2.getD ""))).toList) = true ∧
          containsSub "delete".toList
            (lowerStr (joinNL (triggers.map (fun t => t.2.getD ""))).toList) = true ∧
          (containsSub "raise".toList
              (lowerStr (joinNL (triggers.map (fun t => t.2.getD ""))).toList) = true ∨
            containsSub "abort".toList
              (lowerStr (joinNL (triggers.map (fun t => t.2.getD ""))).toList) = true))) ∧
      (require_immutable_table table triggers =
        ([], .fatal ("[FAIL] " ++ table ++
          " is not DB-immutable. Missing triggers blocking UPDATE/DELETE with RAISE/ABORT.")) ↔
        immutableBlobOk triggers = false) := by
  refine ⟨?_, ?_, ?_⟩
  · by_cases h : immutableBlobOk triggers <;> simp [require_immutable_table, h]
  · simp only [immutableBlobOk, Bool.and_eq_true, Bool.or_eq_true]
    tauto
  · by_cases h : immutableBlobOk triggers <;> simp [require_immutable_table, h]

/-- C7: the ghost-state step fails exactly when the scan target was
located and produced at least one finding; on failure it prints the
header plus one line per finding for at most the first 25 findings
(each line carrying the operation text, table, and character offset via
`fmtHit`); a missing target only warns and returns normally, and a
located target with no findings passes. -/
theorem c7_scan_outcome (kernelText : Option String) :
    ((scan_for_ghost_state kernelText).2 ≠ .ok ↔
      ∃ t, kernelText = some t ∧ ghostHits t ≠ []) ∧
      (∀ t, kernelText = some t → ghostHits t ≠ [] →
        scan_for_ghost_state kernelText =
          ("[FAIL] Possible ghost-state mutations in kernel.ts (heuristic):" ::
              ((ghostHits t).take 25).map fmtHit,
            .fatal
              "Ghost-state heuristic failed. Ensure mutations emit event+receipt or are derived.") ∧
          (((ghostHits t).take 25).map fmtHit).length ≤ 25) ∧
      (kernelText = none →
        scan_for_ghost_state kernelText =
          (["[WARN] kernel.ts not found for ghost-state scan; skipping."], .ok)) ∧
      (∀ t, kernelText = some t → ghostHits t = [] →
        scan_for_ghost_state kernelText =
          (["[OK] Ghost-state heuristic passed (no obvious unlogged mutations)."], .ok)) := by
  cases kernelText with
  | none =>
    refine ⟨?_, ?_, fun _ => rfl, ?_⟩
    · simp [scan_for_ghost_state]
    · intro t ht
      cases ht
    · intro t ht
      cases ht
  | some t0 =>
    by_cases h : ghostHits t0 = []
    · refine ⟨?_, ?_, ?_, ?_⟩
      · simp [scan_for_ghost_state, h]
      · intro t ht hne
        cases ht
        exact absurd h hne
      · intro ht
        cases ht
      · intro t ht _
        cases ht
        simp [scan_for_ghost_state, h]
    · refine ⟨?_, ?_, ?_, ?_⟩
      · simp only [scan_for_ghost_state, List.isEmpty_eq_true, h, if_neg]
        constructor
        · intro _
          exact ⟨t0, rfl, h⟩
        · intro _ hok
          simp [List.isEmpty_iff, h] at hok
      · intro t ht hne
        cases ht
        constructor
        · simp [scan_for_ghost_state, List.isEmpty_iff, h]
        · simp only [List.length_map, List.length_take]
          omega
      · intro ht
        cases ht
      · intro t ht hc
        cases ht
        exact absurd hc h

/-- C7, witness: a located scan target consisting of one unlogged
`UPDATE` on `budgets` makes the step fail listing that finding. -/
theorem c7_witness :
    scan_for_ghost_state (some "UPDATE budgets SET x = 1") =
      ("[FAIL] Possible ghost-state mutations in kernel.ts (heuristic):" ::
          ((ghostHits "UPDATE budgets SET x = 1").take 25).map fmtHit,
        .fatal
          "Ghost-state heuristic failed. Ensure mutations emit event+receipt or are derived.") ∧
      (((ghostHits "UPDATE budgets SET x = 1").take 25).map fmtHit).length ≤ 25 :=
  (c7_scan_outcome (some "UPDATE budgets SET x = 1")).2.1
    "UPDATE budgets SET x = 1" rfl (by decide)

/-- A fully passing environment: one migration directory with one file,
correctly authored triggers on both audit tables, seeding and all four
forbidden writes behaving as intended, and a located scan target with
no unlogged mutations. -/
def passingEnv : GuardianEnv where
  migDirs := [⟨true, ["0001_init.sql"]⟩, ⟨false, []⟩, ⟨false, []⟩]
  applyError := none
  eventsTriggers :=
    [("trg_events_no_update",
      some "CREATE TRIGGER trg_events_no_update BEFORE UPDATE ON events BEGIN SELECT RAISE(ABORT, 'events is append-only'); END"),
     ("trg_events_no_delete",
      some "CREATE TRIGGER trg_events_no_delete BEFORE DELETE ON events BEGIN SELECT RAISE(ABORT, 'events is append-only'); END")]
  receiptsTriggers :=
    [("trg_receipts_no_update",
      some "CREATE TRIGGER trg_receipts_no_update BEFORE UPDATE ON receipts BEGIN SELECT RAISE(ABORT, 'receipts is append-only'); END"),
     ("trg_receipts_no_delete",
      some "CREATE TRIGGER trg_receipts_no_delete BEFORE DELETE ON receipts BEGIN SELECT RAISE(ABORT, 'receipts is append-only'); END")]
  seedOk := true
  exec := fun _ => .dbError
  kernelRoot := some "export const kernel = 1;"
  kernelSrc := none
  kernelSrcKernel := none

/-- C2, counterexample: on a fully passing run the guardian exits zero
but prints eight `[OK]` diagnostic lines, not five. -/
theorem c2_counterexample :
    (runGuardian passingEnv).result = .passed ∧
      ((runGuardian passingEnv).lines.filter (fun l => isOkLine l)).length = 8 ∧
      ¬((runGuardian passingEnv).lines.filter (fun l => isOkLine l)).length = 5 := by
  refine ⟨rfl, rfl, ?_⟩
  intro h
  rw [show ((runGuardian passingEnv).lines.filter (fun l => isOkLine l)).length = 8
        from rfl] at h
  cases h

/-- C2, amended: on a fully passing run (migrations found and applied,
valid triggers on both audit tables, successful seed, all four
forbidden writes blocked, scan target located with no findings) the
guardian exits zero and its stdout is the banner line followed by
exactly eight `[OK]` lines — two from the Verifier, four from the
Prover (update and delete on each audit table), one from the Scanner,
and one final summary — and nothing else. -/
theorem c2_amended (env : GuardianEnv) (t : String)
    (hmig : ∃ fs, find_sql_migrations env.migDirs = .ok fs)
    (happ : env.applyError = none)
    (hev : immutableBlobOk env.eventsTriggers = true)
    (hrc : immutableBlobOk env.receiptsTriggers = true)
    (hseed : env.seedOk = true)
    (h1 : env.exec (updateSqlFor "events" "type" "event_id") = .dbError)
    (h2 : env.exec (deleteSqlFor "events" "event_id") = .dbError)
    (h3 : env.exec (updateSqlFor "receipts" "what_happened" "receipt_id") = .dbError)
    (h4 : env.exec (deleteSqlFor "receipts" "receipt_id") = .dbError)
    (hk : resolveKernel env.kernelRoot env.kernelSrc env.kernelSrcKernel = some t)
    (hclean : ghostHits t = []) :
    (runGuardian env).result = .passed ∧
      (runGuardian env).lines =
        ["== Bloom Kernel Guardian ==",
         "[OK] events appears DB-immutable (triggers present).",
         "[OK] receipts appears DB-immutable (triggers present).",
         "[OK] UPDATE on events blocked as expected.",
         "[OK] DELETE on events blocked as expected.",
         "[OK] UPDATE on receipts blocked as expected.",
         "[OK] DELETE on receipts blocked as expected.",
         "[OK] Ghost-state heuristic passed (no obvious unlogged mutations).",
         "[OK] Guardian checks passed."] ∧
      ((runGuardian env).lines.filter (fun l => isOkLine l)).length = 8 := by
  obtain ⟨fs, hfs⟩ := hmig
  have hrun : runGuardian env =
      ⟨[Stage.load, Stage.verify, Stage.seed, Stage.prove, Stage.scan],
       ["== Bloom Kernel Guardian ==",
        "[OK] events appears DB-immutable (triggers present).",
        "[OK] receipts appears DB-immutable (triggers present).",
        "[OK] UPDATE on events blocked as expected.",
        "[OK] DELETE on events blocked as expected.",
        "[OK] UPDATE on receipts blocked as expected.",
        "[OK] DELETE on receipts blocked as expected.",
        "[OK] Ghost-state heuristic passed (no obvious unlogged mutations).",
        "[OK] Guardian checks passed."],
       .passed⟩ := by
    simp [runGuardian, runStages, loadStage, hfs, happ, apply_migrations,
      verifyStage, require_immutable_table, hev, hrc, seqStep, seedStage, hseed,
      proveStage, prove_immutable_by_writes, assert_blocked, h1, h2, h3, h4,
      scanStage, scan_for_ghost_state, hk, hclean]
  rw [hrun]
  refine ⟨rfl, rfl, rfl⟩

/-- C2, witness: the amended statement holds at the concrete fully
passing environment. -/
theorem c2_amended_witness :
    (runGuardian passingEnv).result = .passed ∧
      (runGuardian passingEnv).lines =
        ["== Bloom Kernel Guardian ==",
         "[OK] events appears DB-immutable (triggers present).",
         "[OK] receipts appears DB-immutable (triggers present).",
         "[OK] UPDATE on events blocked as expected.",
         "[OK] DELETE on events blocked as expected.",
         "[OK] UPDATE on receipts blocked as expected.",
         "[OK] DELETE on receipts blocked as expected.",
         "[OK] Ghost-state heuristic passed (no obvious unlogged mutations).",
         "[OK] Guardian checks passed."] ∧
      ((runGuardian passingEnv).lines.filter (fun l => isOkLine l)).length = 8 :=
  c2_amended passingEnv "export const kernel = 1;"
    ⟨["0001_init.sql"], rfl⟩ rfl (by decide) (by decide) rfl rfl rfl rfl rfl rfl
    (by decide)

/-- The stages entered by `runStages` are an in-order prefix of the
staged list. -/
theorem runStages_trace (l : List (Stage × (List String × StepResult))) :
    ∃ k, k ≤ l.length ∧ (runStages l).1 = (l.map Prod.fst).take k := by
  induction l with
  | nil => exact ⟨0, Nat.le_refl 0, rfl⟩
  | cons p rest ih =>
    obtain ⟨st, ls, r⟩ := p
    cases r with
    | ok =>
      obtain ⟨k, hk, htr⟩ := ih
      refine ⟨k + 1, by simpa using hk, ?_⟩
      simp [runStages, htr]
    | fatal m => exact ⟨1, by simp, by simp [runStages]⟩
    | exn => exact ⟨1, by simp, by simp [runStages]⟩

/-- A `runStages` pipeline reaches the `passed` outcome only by
entering every stage. -/
theorem runStages_passed (l : List (Stage × (List String × StepResult))) :
    (runStages l).2.2 = .passed → (runStages l).1 = l.map Prod.fst := by
  induction l with
  | nil => intro _; rfl
  | cons p rest ih =>
    obtain ⟨st, ls, r⟩ := p
    cases r with
    | ok =>
      intro h
      have h2 : (runStages rest).2.2 = .passed := by
        simpa [runStages] using h
      simp [runStages, ih h2]
    | fatal m => intro h; simp [runStages] at h
    | exn => intro h; simp [runStages] at h

/-- Fail-fast for `runStages`: either every staged step returns
normally and the pipeline passes having entered every stage, or there
is a first non-normal step — all steps before it returned normally —
and the pipeline enters exactly the stages through it and terminates
with that step's failure (`SystemExit` gives the failed state, any
other exception the exceptional exit). -/
theorem runStages_fail_fast (l : List (Stage × (List String × StepResult))) :
    ((∀ p ∈ l, p.2.2 = .ok) ∧ (runStages l).1 = l.map Prod.fst ∧
        (runStages l).2.2 = .passed) ∨
      (∃ pre q post, l = pre ++ q :: post ∧ (∀ r ∈ pre, r.2.2 = .ok) ∧
        q.2.2 ≠ .ok ∧
        (runStages l).1 = pre.map Prod.fst ++ [q.1] ∧
        (∀ m, q.2.2 = .fatal m → (runStages l).2.2 = .failed m) ∧
        (q.2.2 = .exn → (runStages l).2.2 = .exnExit)) := by
  induction l with
  | nil => exact Or.inl ⟨by simp, rfl, rfl⟩
  | cons p rest ih =>
    obtain ⟨st, ls, r⟩ := p
    cases r with
    | ok =>
      rcases ih with ⟨hall, htr, hres⟩ | ⟨pre, q, post, heq, hpre, hq, htr, hf, he⟩
      · refine Or.inl ⟨?_, ?_, ?_⟩
        · intro p hp
          rcases List.mem_cons.mp hp with h | h
          · rw [h]
          · exact hall p h
        · simp [runStages, htr]
        · simp [runStages, hres]
      · refine Or.inr ⟨(st, ls, .ok) :: pre, q, post, by rw [heq, List.cons_append],
          ?_, hq, ?_, ?_, ?_⟩
        · intro r hr
          rcases List.mem_cons.mp hr with h | h
          · rw [h]
          · exact hpre r h
        · simp [runStages, htr]
        · intro m hm
          simp [runStages, hf m hm]
        · intro hm
          simp [runStages, he hm]
    | fatal m0 =>
      refine Or.inr ⟨[], (st, ls, .fatal m0), rest, rfl, by simp, by simp,
        by simp [runStages], ?_, ?_⟩
      · intro m hm
        simp only at hm
        injection hm with h
        rw [← h]
        rfl
      · intro hm
        simp at hm
    | exn =>
      refine Or.inr ⟨[], (st, ls, .exn), rest, rfl, by simp, by simp,
        by simp [runStages], ?_, ?_⟩
      · intro m hm
        simp at hm
      · intro _
        rfl

/-- C8: every guardian run enters an in-order prefix of
Load → Verify → Seed → Prove → Scan (no retries, no backward
transitions); a run terminates `passed` only after entering all five;
when loading succeeds, the `events` triggers pass the verifier, and the
`receipts` triggers fail it, the run stops at Verify in the failed
state with the diagnostic naming `receipts`, and Seed, Prove and Scan
are never entered; and fail-fast holds for every stage: unless all five
steps return normally (and the run passes), there is a first failing
stage, all stages before it returned normally, the trace ends exactly
at that stage, and its failure is the run's terminal Failed outcome. -/
theorem c8_pipeline_order (env : GuardianEnv) :
    (∃ k, k ≤ 5 ∧ (runGuardian env).trace =
        [Stage.load, Stage.verify, Stage.seed, Stage.prove, Stage.scan].take k) ∧
      ((runGuardian env).result = .passed →
        (runGuardian env).trace =
          [Stage.load, Stage.verify, Stage.seed, Stage.prove, Stage.scan]) ∧
      ((∃ fs, find_sql_migrations env.migDirs = .ok fs) →
        env.applyError = none →
        immutableBlobOk env.eventsTriggers = true →
        immutableBlobOk env.receiptsTriggers = false →
        (runGuardian env).trace = [Stage.load, Stage.verify] ∧
          (runGuardian env).result = .failed
            "[FAIL] receipts is not DB-immutable. Missing triggers blocking UPDATE/DELETE with RAISE/ABORT." ∧
          Stage.seed ∉ (runGuardian env).trace ∧
          Stage.prove ∉ (runGuardian env).trace ∧
          Stage.scan ∉ (runGuardian env).trace) ∧
      (((∀ p ∈ [(Stage.load, loadStage env), (Stage.verify, verifyStage env),
            (Stage.seed, seedStage env), (Stage.prove, proveStage env),
            (Stage.scan, scanStage env)], p.2.2 = .ok) ∧
          (runGuardian env).result = .passed) ∨
        (∃ pre q post,
          [(Stage.load, loadStage env), (Stage.verify, verifyStage env),
            (Stage.seed, seedStage env), (Stage.prove, proveStage env),
            (Stage.scan, scanStage env)] = pre ++ q :: post ∧
          (∀ r ∈ pre, r.2.2 = .ok) ∧ q.2.2 ≠ .ok ∧
          (runGuardian env).trace = pre.map Prod.fst ++ [q.1] ∧
          (∀ m, q.2.2 = .fatal m → (runGuardian env).result = .failed m) ∧
          (q.2.2 = .exn → (runGuardian env).result = .exnExit))) := by
  refine ⟨?_, ?_, ?_, ?_⟩
  · obtain ⟨k, hk, htr⟩ := runStages_trace
      [(.load, loadStage env), (.verify, verifyStage env), (.seed, seedStage env),
       (.prove, proveStage env), (.scan, scanStage env)]
    exact ⟨k, by simpa using hk, htr⟩
  · intro h
    exact runStages_passed
      [(.load, loadStage env), (.verify, verifyStage env), (.seed, seedStage env),
       (.prove, proveStage env), (.scan, scanStage env)] h
  · rintro ⟨fs, hfs⟩ happ hev hrc
    have hrun : runGuardian env =
        ⟨[Stage.load, Stage.verify],
         ["== Bloom Kernel Guardian ==",
          "[OK] events appears DB-immutable (triggers present)."],
         .failed
           "[FAIL] receipts is not DB-immutable. Missing triggers blocking UPDATE/DELETE with RAISE/ABORT."⟩ := by
      simp [runGuardian, runStages, loadStage, hfs, happ, apply_migrations,
        verifyStage, require_immutable_table, hev, hrc, seqStep]
    rw [hrun]
    refine ⟨rfl, rfl, by decide, by decide, by decide⟩
  · rcases runStages_fail_fast
        [(Stage.load, loadStage env), (Stage.verify, verifyStage env),
         (Stage.seed, seedStage env), (Stage.prove, proveStage env),
         (Stage.scan, scanStage env)] with
      ⟨hall, _, hres⟩ | ⟨pre, q, post, heq, hpre, hq, htr, hf, he⟩
    · exact Or.inl ⟨hall, hres⟩
    · exact Or.inr ⟨pre, q, post, heq, hpre, hq, htr, hf, he⟩

/-- An environment whose `receipts` triggers lack any delete-blocking
text while everything else is in order. -/
def verifyFailEnv : GuardianEnv where
  migDirs := [⟨true, ["0001_init.sql"]⟩, ⟨false, []⟩, ⟨false, []⟩]
  applyError := none
  eventsTriggers :=
    [("trg_events_no_update",
      some "CREATE TRIGGER trg_events_no_update BEFORE UPDATE ON events BEGIN SELECT RAISE(ABORT, 'events is append-only'); END"),
     ("trg_events_no_delete",
      some "CREATE TRIGGER trg_events_no_delete BEFORE DELETE ON events BEGIN SELECT RAISE(ABORT, 'events is append-only'); END")]
  receiptsTriggers :=
    [("trg_receipts_no_update",
      some "CREATE TRIGGER trg_receipts_no_update BEFORE UPDATE ON receipts BEGIN SELECT RAISE(ABORT, 'receipts is append-only'); END")]
  seedOk := true
  exec := fun _ => .dbError
  kernelRoot := some "export const kernel = 1;"
  kernelSrc := none
  kernelSrcKernel := none

/-- C8, witness: with the delete-blocking trigger missing on
`receipts`, the run stops at Verify naming `receipts` and never enters
Seed, Prove or Scan. -/
theorem c8_witness :
    (runGuardian verifyFailEnv).trace = [Stage.load, Stage.verify] ∧
      (runGuardian verifyFailEnv).result = .failed
        "[FAIL] receipts is not DB-immutable. Missing triggers blocking UPDATE/DELETE with RAISE/ABORT." ∧
      Stage.seed ∉ (runGuardian verifyFailEnv).trace ∧
      Stage.prove ∉ (runGuardian verifyFailEnv).trace ∧
      Stage.scan ∉ (runGuardian verifyFailEnv).trace :=
  (c8_pipeline_order verifyFailEnv).2.2.1 ⟨["0001_init.sql"], rfl⟩ rfl
    (by decide) (by decide)

/-- C9: the lint scanner's segment selection searches string-literal
contents for the code extensions, the tag-stripped line for the markup
extensions, and the raw line for every other supported extension, and
the process exits non-zero exactly when at least one banned-term match
was recorded (and its exit code is always 0 or 1). -/
theorem c9_lint_exit :
    (∀ files : List LintFile,
        (lintExitCode files ≠ 0 ↔ lintHits files ≠ []) ∧
          (lintExitCode files = 0 ∨ lintExitCode files = 1)) ∧
      (∀ line : List Char,
        segmentsOf ".ts" line = extract_string_literals line ∧
          segmentsOf ".tsx" line = extract_string_literals line ∧
          segmentsOf ".js" line = extract_string_literals line ∧
          segmentsOf ".jsx" line = extract_string_literals line ∧
          segmentsOf ".html" line = [strip_html_tags line] ∧
          segmentsOf ".htm" line = [strip_html_tags line]) ∧
      (∀ (ext : String) (line : List Char), ext ∈ EXTENSIONS →
        ext ∉ ([".ts", ".tsx", ".js", ".jsx", ".html", ".htm"] : List String) →
        segmentsOf ext line = [line]) := by
  refine ⟨?_, ?_, ?_⟩
  · intro files
    by_cases h : lintHits files = []
    · constructor
      · simp [lintExitCode, h]
      · left
        simp [lintExitCode, h]
    · constructor
      · simp [lintExitCode, List.isEmpty_iff, h]
      · right
        simp [lintExitCode, List.isEmpty_iff, h]
  · intro line
    refine ⟨?_, ?_, ?_, ?_, ?_, ?_⟩ <;> simp [segmentsOf]
  · intro ext line hin hnot
    simp only [List.mem_cons, List.not_mem_nil, or_false, not_or] at hnot
    obtain ⟨n1, n2, n3, n4, n5, n6⟩ := hnot
    simp [segmentsOf, n1, n2, n3, n4, n5, n6]

/-- C9, witness: a supported non-code, non-markup extension is scanned
as raw lines, and one banned term in such a file makes the exit code
non-zero. -/
theorem c9_witness :
    segmentsOf ".md" "wallet here".toList = ["wallet here".toList] ∧
      lintExitCode [⟨".md", "wallet here"⟩] ≠ 0 :=
  ⟨c9_lint_exit.2.2 ".md" "wallet here".toList (by decide) (by decide),
   (c9_lint_exit.1 [⟨".md", "wallet here"⟩]).1.mpr (by decide)⟩

/-- C10: every hit of the lint scanner arises from a single line of the
split text (the term patterns are applied per line), so the banned term
`private key` broken across a line break is never flagged even though
its regex (whose `\s+` matches a newline) matches the unsplit text;
within one line, matching is word-boundary delimited, case-insensitive,
and allows arbitrary whitespace between the words of a multi-word
term. -/
theorem c10_line_by_line :
    (∀ f : LintFile, fileHits f =
        (enumFrom 1 (splitLinesPy f.text.toList)).flatMap
          (fun p => lineHits f.ext p.1 p.2)) ∧
      (∀ (f : LintFile) (h : LintHit), h ∈ fileHits f →
        ∃ p ∈ enumFrom 1 (splitLinesPy f.text.toList), h ∈ lineHits f.ext p.1 p.2) ∧
      termSearch "private key" "private\nkey".toList = true ∧
      fileHits ⟨".md", "private\nkey"⟩ = [] ∧
      fileHits ⟨".md", "private key"⟩ = [⟨1, "private key", "private key"⟩] ∧
      termSearch "private key" "a Private \t KEY b".toList = true ∧
      termSearch "private key" "privater key".toList = false ∧
      termSearch "gas" "gasoline".toList = false ∧
      termSearch "gas" "the GAS price".toList = true := by
  refine ⟨fun f => rfl, ?_, by decide, by decide, by decide, by decide, by decide,
    by decide, by decide⟩
  intro f h hmem
  exact List.mem_flatMap.mp hmem

/-- C10, witness: the hit recorded for a one-line `private key` file
comes from line 1 of the split text. -/
theorem c10_witness :
    ∃ p ∈ enumFrom 1 (splitLinesPy ("private key" : String).toList),
      (⟨1, "private key", "private key"⟩ : LintHit) ∈ lineHits ".md" p.1 p.2 :=
  c10_line_by_line.2.1 ⟨".md", "private key"⟩ ⟨1, "private key", "private key"⟩
    (by decide)

/-- C1, witness: the amended discovery rule evaluated at one existing
directory with two files returns them sorted. -/
theorem c1_witness :
    find_sql_migrations [⟨true, ["b.sql", "a.sql"]⟩] = .ok ["a.sql", "b.sql"] :=
  (c1_amended [⟨true, ["b.sql", "a.sql"]⟩]).trans (by rfl)

/-- C3, witness: the amended matching rule applied to the mixed-case
instance `INSERT INTO budgets` followed by `_archive (id) VALUES (1)` —
the alternation matches, consuming exactly the 19 characters through
the table name. -/
theorem c3_witness :
    matchAltsLen (tableAlts "budgets".toList)
        ("INSERT".toList ++ (" ".toList ++ ("INTO".toList ++ (" ".toList ++
          ("budgets".toList ++ "_archive (id) VALUES (1)".toList))))) = some 19 :=
  c3_amended.1 "budgets" "INSERT".toList "INTO".toList "budgets".toList
    " ".toList " ".toList "_archive (id) VALUES (1)".toList
    (by decide) (by decide) (by decide) (by decide) (by decide) (by decide)
    (by decide) (by decide)

/-- C4, witness: the window rule applied at the match `(0, 19)` of the
clean concrete text records the `budgets` finding. -/
theorem c4_witness :
    (⟨"budgets", "INSERT INTO budgets", 0⟩ : GhostStateFinding) ∈
      scanTableHits "INSERT INTO budgets (amount) VALUES (1)".toList "budgets" :=
  (c4_window_rule.1 "INSERT INTO budgets (amount) VALUES (1)".toList "budgets"
      ⟨"budgets", "INSERT INTO budgets", 0⟩).mpr
    ⟨19, by decide, by decide, by decide, rfl⟩

/-- C6, witness: a trigger blob containing all three token categories
passes the verifier for `events`. -/
theorem c6_witness :
    require_immutable_table "events"
        [("trg", some "BEFORE UPDATE OR DELETE BEGIN SELECT RAISE(ABORT, 'x'); END")] =
      (["[OK] events appears DB-immutable (triggers present)."], .ok) :=
  ((c6_verifier_tokens "events"
      [("trg", some "BEFORE UPDATE OR DELETE BEGIN SELECT RAISE(ABORT, 'x'); END")]).1).mpr
    (by decide)

end Bloom
